import Mathlib

/-!
Verification development for the `Langchain_Assignment` repository: a
tool-augmented conversational agent (tools.py, agent.py, client.py, cred.py,
main.py, prompt.py).  Python values, exceptions and control flow are shallowly
embedded; numeric values are modelled as exact rationals (`Frac`), an exact
abstraction of Python's binary floating point.  The model is exact for the
integer-valued arithmetic exercised here; decimal rendering of non-integral
floats and irrational results of fractional powers are outside the rational
model and are flagged explicitly where they occur.
-/

/-! ## Exact rational numbers

Executable, kernel-reducible fraction arithmetic used as the numeric domain of
the embedding.  Every operation normalizes (positive denominator, lowest
terms), so structural equality coincides with value equality.
-/

/-- A rational number as numerator/denominator.  All constructors used in the
development go through `Frac.norm`, so the denominator is positive and the
fraction is in lowest terms. -/
structure Frac where
  num : Int
  den : Int
  deriving DecidableEq, Repr

/-- Normalize a fraction: make the denominator positive and divide out the gcd.
Expects `d ≠ 0`; every call site guards division by zero first, mirroring the
`ZeroDivisionError` checks of the Python runtime. -/
def Frac.norm (n d : Int) : Frac :=
  let g : Int := (Int.gcd n d : Nat)
  if d < 0 then ⟨-(n / g), -(d / g)⟩ else ⟨n / g, d / g⟩

/-- Embed an integer. -/
def Frac.ofInt (n : Int) : Frac := ⟨n, 1⟩

def Frac.add (a b : Frac) : Frac := Frac.norm (a.num * b.den + b.num * a.den) (a.den * b.den)

def Frac.sub (a b : Frac) : Frac := Frac.norm (a.num * b.den - b.num * a.den) (a.den * b.den)

def Frac.mul (a b : Frac) : Frac := Frac.norm (a.num * b.num) (a.den * b.den)

/-- True division; callers guard `b ≠ 0`. -/
def Frac.div (a b : Frac) : Frac := Frac.norm (a.num * b.den) (a.den * b.num)

def Frac.neg (a : Frac) : Frac := ⟨-a.num, a.den⟩

/-- Comparison (denominators are positive by construction). -/
def Frac.lt (a b : Frac) : Bool := a.num * b.den < b.num * a.den

def Frac.abs (a : Frac) : Frac := if a.num < 0 then ⟨-a.num, a.den⟩ else a

/-- Truncation toward zero: the value Python's `int()` produces on a float. -/
def Frac.trunc (a : Frac) : Int := Int.tdiv a.num a.den

/-- Mathematical floor, the value of Python's `math.floor` / float `//`. -/
def Frac.floor (a : Frac) : Int := Int.fdiv a.num a.den

def Frac.isZero (a : Frac) : Bool := a.num = 0

/-- Whether the fraction is an integer (denominator 1 after normalization). -/
def Frac.isInt (a : Frac) : Bool := a.den = 1

def Frac.powNat (a : Frac) : Nat → Frac
  | 0 => ⟨1, 1⟩
  | n + 1 => (Frac.powNat a n).mul a

/-- Integer powers, negative exponents via the reciprocal; callers guard the
`0 ** negative` case. -/
def Frac.powInt (a : Frac) : Int → Frac
  | .ofNat n => Frac.powNat a n
  | .negSucc n => Frac.div ⟨1, 1⟩ (Frac.powNat a (n + 1))

/-! ## Python exceptions and results -/

/-- A Python exception: class name (what `type(e).__name__` yields) and
message. -/
structure PyExn where
  name : String
  msg : String
  deriving DecidableEq, Repr

/-- Outcome of running a piece of Python code: a returned value or a raised
exception propagating out. -/
inductive PyResult (α : Type) where
  | ok (a : α)
  | raised (e : PyExn)
  deriving DecidableEq, Repr

def PyResult.bind {α β : Type} : PyResult α → (α → PyResult β) → PyResult β
  | .ok a, f => f a
  | .raised e, _ => .raised e

def PyResult.map {α β : Type} (f : α → β) : PyResult α → PyResult β
  | .ok a => .ok (f a)
  | .raised e => .raised e

def PyResult.isOk {α : Type} : PyResult α → Bool
  | .ok _ => true
  | .raised _ => false

/-- The `try: ... except Exception as e: return enc(e)` pattern every tool in
tools.py wraps its body in: a raised exception is converted to an in-band
return value and nothing propagates across the tool boundary. -/
def toolBoundary {α : Type} (body : PyResult α) (enc : PyExn → α) : PyResult α :=
  match body with
  | .ok a => .ok a
  | .raised e => .ok (enc e)

/-! ## tools.py — math tool (`_safe_eval_math`, `math_tool`)

The embedding is at the level of the parsed `ast` tree (`ast.parse(expr,
mode="eval")`): string preprocessing (strip, the `×`/`÷` replacements) and the
parser itself are not modelled; claims quantify over parsed expressions.
-/

/-- Python AST unary operators (`ast.UAdd`, `ast.USub` are the two entries of
`_ALLOWED_UNARY_OPS`; `ast.Not` and `ast.Invert` exist but are not in the
table). -/
inductive PyUnaryOp where
  | uAdd | uSub | uNot | uInvert
  deriving DecidableEq, Repr

/-- Python AST binary operators.  The first seven are the keys of
`_ALLOWED_BIN_OPS`; the rest exist in the AST but are not in the table. -/
inductive PyBinOp where
  | add | sub | mult | div | floorDiv | mod | pow
  | bitOr | bitXor | bitAnd | lShift | rShift | matMult
  deriving DecidableEq, Repr

/-- Python constants as they appear in `ast.Constant.value`.  `intC`/`floatC`
are numeric literals; a float literal is a binary floating-point number, i.e.
the dyadic rational `mantissa / 2 ^ exp`, modelled exactly.  `boolC` records
that Python's `bool` is a subclass of `int`, so `True`/`False` pass the
code's `isinstance(n.value, (int, float))` test with values 1/0. -/
inductive PyConst where
  | intC (n : Int)
  | floatC (mantissa : Int) (exp : Nat)
  | boolC (b : Bool)
  | strC (s : String)
  | noneC
  | complexC
  deriving DecidableEq, Repr

/-- The fragment of the Python expression AST relevant to the math tool:
numeric expressions plus the syntax classes the specification names as
rejected (names, calls, attribute access). -/
inductive PyExpr where
  | const (c : PyConst)
  | unaryOp (u : PyUnaryOp) (e : PyExpr)
  | binOp (b : PyBinOp) (l r : PyExpr)
  | name (id : String)
  | call (f : PyExpr)
  | attrAccess (e : PyExpr) (attrName : String)
  deriving DecidableEq, Repr

/-- The `isinstance(n.value, (int, float))` test followed by `float(n.value)`:
the numeric value of a constant, `none` for non-numeric constants. -/
def numericConstVal : PyConst → Option Frac
  | .intC n => some (Frac.ofInt n)
  | .floatC m e => some (Frac.norm m (2 ^ e))
  | .boolC b => some (Frac.ofInt (if b then 1 else 0))
  | .strC _ => none
  | .noneC => none
  | .complexC => none

def zeroDivisionExn (what : String) : PyExn := ⟨"ZeroDivisionError", what⟩

/-- `operator.truediv` on floats: raises `ZeroDivisionError` on a zero
divisor. -/
def pyTruediv (a b : Frac) : PyResult Frac :=
  if b.isZero then .raised (zeroDivisionExn "float division by zero")
  else .ok (a.div b)

/-- `operator.floordiv` on floats: the floor of the quotient. -/
def pyFloordiv (a b : Frac) : PyResult Frac :=
  if b.isZero then .raised (zeroDivisionExn "float floor division by zero")
  else .ok (Frac.ofInt ((a.div b).floor))

/-- `operator.mod` on floats: `a - b * floor(a / b)` (the sign follows the
divisor). -/
def pyMod (a b : Frac) : PyResult Frac :=
  if b.isZero then .raised (zeroDivisionExn "float modulo")
  else .ok (a.sub (b.mul (Frac.ofInt ((a.div b).floor))))

/-- `operator.pow` on floats, restricted to integral exponents.  CPython
computes a float power for a non-integral exponent (an irrational real in
general); that value lies outside the exact-rational model, so the model maps
it to a `ModelBoundary` error.  All other cases are exact: integral exponents
give the exact rational power, and `0 ** negative` raises `ZeroDivisionError`
as in CPython. -/
def pyPow (a b : Frac) : PyResult Frac :=
  if b.isInt then
    if a.isZero && decide (b.num < 0) then
      .raised (zeroDivisionExn "zero cannot be raised to a negative power")
    else .ok (a.powInt b.num)
  else .raised ⟨"ModelBoundary", "non-integral exponent outside the rational model"⟩

/-- The `_ALLOWED_BIN_OPS` table of tools.py: the seven allowed operator types
mapped to their `operator`-module implementations; every other operator type
is absent (`none`). -/
def allowedBinOps : PyBinOp → Option (Frac → Frac → PyResult Frac)
  | .add => some (fun a b => .ok (a.add b))
  | .sub => some (fun a b => .ok (a.sub b))
  | .mult => some (fun a b => .ok (a.mul b))
  | .div => some pyTruediv
  | .floorDiv => some pyFloordiv
  | .mod => some pyMod
  | .pow => some pyPow
  | _ => none

/-- The `_ALLOWED_UNARY_OPS` table of tools.py: `UAdd ↦ operator.pos`,
`USub ↦ operator.neg`. -/
def allowedUnaryOps : PyUnaryOp → Option (Frac → Frac)
  | .uAdd => some id
  | .uSub => some Frac.neg
  | _ => none

/-- The message of the catch-all `ValueError` in `_safe_eval_math`. -/
def unsupportedMsg : String := "Unsupported expression. Use only numbers and + - * / // % ** ( )."

def unsupportedExn : PyExn := ⟨"ValueError", unsupportedMsg⟩

/-- The inner `_eval` of `_safe_eval_math` (tools.py lines 39-52): numeric
constants evaluate to their float value; unary and binary nodes whose operator
is in the allowed table evaluate their operands (left before right, errors
short-circuiting) and apply the table entry; every other node raises the
catch-all `ValueError`. -/
def safe_eval_math : PyExpr → PyResult Frac
  | .const c =>
      match numericConstVal c with
      | some v => .ok v
      | none => .raised unsupportedExn
  | .unaryOp u e =>
      match allowedUnaryOps u with
      | some f => (safe_eval_math e).map f
      | none => .raised unsupportedExn
  | .binOp b l r =>
      match allowedBinOps b with
      | some f =>
          (safe_eval_math l).bind fun vl =>
          (safe_eval_math r).bind fun vr => f vl vr
      | none => .raised unsupportedExn
  | .name _ => .raised unsupportedExn
  | .call _ => .raised unsupportedExn
  | .attrAccess _ _ => .raised unsupportedExn

/-- Decimal digits of a natural number (fuel-bounded recursion on the digit
count; 200 digits is far beyond any value in this development). -/
def natDigitsAux : Nat → Nat → List Char
  | 0, _ => []
  | fuel + 1, n =>
      if n = 0 then []
      else natDigitsAux fuel (n / 10) ++ [Char.ofNat (48 + n % 10)]

def natRepr (n : Nat) : String :=
  if n = 0 then "0" else String.mk (natDigitsAux 200 n)

/-- Decimal rendering of an integer, what Python's `str(int)` prints. -/
def intRepr (n : Int) : String :=
  match n with
  | .ofNat m => natRepr m
  | .negSucc m => "-" ++ natRepr (m + 1)

/-- Rendering of a non-integral value.  Python prints the decimal expansion of
the float; the decimal rendering is outside the exact-rational model, so the
model renders the exact fraction.  The claims about `math_tool` concern which
value is rendered and when the integer format is used, never the decimal
digits of a non-integral float, so this abstraction is sound for them. -/
def fracRepr (v : Frac) : String := intRepr v.num ++ "/" ++ intRepr v.den

/-- `1e-12`, the near-integer tolerance in `math_tool`. -/
def tol1e12 : Frac := ⟨1, 1000000000000⟩

/-- The result formatting of `math_tool` (tools.py lines 68-71):
`if abs(result - int(result)) < 1e-12: return str(int(result))` else
`str(result)`. -/
def mathRender (result : Frac) : String :=
  if Frac.lt (Frac.abs (result.sub (Frac.ofInt result.trunc))) tol1e12 then
    intRepr result.trunc
  else fracRepr result

/-- The `f"ERROR: {type(e).__name__}: {e}"` encoding shared by `math_tool` and
`date_utility_tool`. -/
def errString (e : PyExn) : String := "ERROR: " ++ e.name ++ ": " ++ e.msg

/-- `math_tool` (tools.py lines 57-73): evaluate, format, and convert any
raised exception into an in-band `"ERROR: ..."` string.  The `PyResult`
return type records whether an exception escapes the tool boundary (it never
does: the whole body is wrapped in `try/except Exception`). -/
def math_tool (e : PyExpr) : PyResult String :=
  toolBoundary ((safe_eval_math e).map mathRender) errString

/-! ## Specification-side evaluator for the math tool

Claim C1 is a refinement claim: the tool's output should match "the value
produced by a standard expression evaluator" on purely arithmetic expressions
and be an error on any other syntax.  `specEval` is that claimed behavior,
written from the specification's words, independently of the structure of
`_safe_eval_math` (no operator tables, no `float()` coercion path, its own
error taxonomy).
-/

/-- Failure modes of the specification-side evaluator. -/
inductive SpecErr where
  | unsupportedSyntax
  | divisionByZero
  | nonIntegralPow
  deriving DecidableEq, Repr

/-- The seven operators the specification lists as valid arithmetic. -/
def specArithOp : PyBinOp → Bool
  | .add | .sub | .mult | .div | .floorDiv | .mod | .pow => true
  | _ => false

/-- Modelled from the spec: the value a standard evaluator assigns to one
application of one of the seven listed operators — exact rational arithmetic,
with division by a zero value and the `0 ** negative` case errors (they have
no value), a non-integral exponent flagged as outside the rational model, and
every operator outside the listed seven unsupported. -/
def specBinApply : PyBinOp → Frac → Frac → Except SpecErr Frac
  | .add, a, b => .ok (a.add b)
  | .sub, a, b => .ok (a.sub b)
  | .mult, a, b => .ok (a.mul b)
  | .div, a, b => if b.isZero then .error .divisionByZero else .ok (a.div b)
  | .floorDiv, a, b =>
      if b.isZero then .error .divisionByZero
      else .ok (Frac.ofInt ((a.div b).floor))
  | .mod, a, b =>
      if b.isZero then .error .divisionByZero
      else .ok (a.sub (b.mul (Frac.ofInt ((a.div b).floor))))
  | .pow, a, b =>
      if b.isInt then
        if a.isZero && decide (b.num < 0) then .error .divisionByZero
        else .ok (a.powInt b.num)
      else .error .nonIntegralPow
  | _, _, _ => .error .unsupportedSyntax

/-- Modelled from the spec: "For all valid arithmetic expressions using only
`+ - * / // % **` and parentheses, the math tool's result equals the value
produced by a standard expression evaluator; any other syntax (names, calls,
attribute access) yields an error result".  A standard evaluator over the
arithmetic fragment: numeric constants (including Python booleans, which are
`int`s) evaluate to their value, unary `+`/`-` applies, the seven listed
binary operators compute exact rational arithmetic, and every expression
containing any other syntax is an error. -/
def specEval : PyExpr → Except SpecErr Frac
  | .const (.intC n) => .ok (Frac.ofInt n)
  | .const (.floatC m e) => .ok (Frac.norm m (2 ^ e))
  | .const (.boolC b) => .ok (Frac.ofInt (if b then 1 else 0))
  | .const _ => .error .unsupportedSyntax
  | .unaryOp .uAdd e => specEval e
  | .unaryOp .uSub e =>
      match specEval e with
      | .ok a => .ok a.neg
      | .error er => .error er
  | .unaryOp _ _ => .error .unsupportedSyntax
  | .binOp op l r =>
      if specArithOp op then
        match specEval l with
        | .error er => .error er
        | .ok a =>
            match specEval r with
            | .error er => .error er
            | .ok b => specBinApply op a b
      else .error .unsupportedSyntax
  | .name _ => .error .unsupportedSyntax
  | .call _ => .error .unsupportedSyntax
  | .attrAccess _ _ => .error .unsupportedSyntax

/-! ## tools.py — text analyzer tool -/

/-- The `_POS_WORDS` set. -/
def posWords : List String :=
  ["good", "great", "awesome", "amazing", "love", "excellent", "happy", "nice",
   "fantastic", "positive"]

/-- The `_NEG_WORDS` set. -/
def negWords : List String :=
  ["bad", "terrible", "awful", "hate", "poor", "sad", "angry", "worst",
   "negative", "horrible"]

/-- ASCII model of the characters Python's regex `\w` matches (the source
texts are ASCII; full Unicode word classes are not modelled). -/
def isWordChar (c : Char) : Bool := c.isAlphanum || c = '_'

/-- ASCII model of Python's `str.lower()` (the keyword sets are ASCII). -/
def pyLower (st : String) : String :=
  String.mk (st.toList.map (fun c => if c.isUpper then Char.ofNat (c.toNat + 32) else c))

/-- Maximal runs of characters satisfying `p`, in order; characters not
satisfying `p` act as separators and are discarded. -/
def charRuns (p : Char → Bool) : List Char → List String
  | [] => []
  | c :: cs =>
      if p c then
        match charRuns p cs with
        | [] => [String.mk [c]]
        | t :: ts =>
            if cs.head?.any p then (String.mk [c] ++ t) :: ts
            else String.mk [c] :: t :: ts
      else charRuns p cs

/-- The token list `re.findall(r"\b\w+\b", s)` produces: maximal runs of word
characters. -/
def wordRuns (cs : List Char) : List String := charRuns isWordChar cs

/-- Python's `str.strip()`: remove leading and trailing whitespace. -/
def pyStrip (s : String) : String :=
  String.mk (((s.toList.dropWhile Char.isWhitespace).reverse.dropWhile Char.isWhitespace).reverse)

/-- The successful payload of `text_analyzer_tool`, or its in-band
`{"error": ...}` dictionary. -/
inductive TextAnalysis where
  | result (word_count character_count : Nat) (sentiment sentiment_reason : String)
  | errDict (desc : String)
  deriving DecidableEq, Repr

/-- The `{"error": f"{type(e).__name__}: {e}"}` encoding shared by
`text_analyzer_tool` and `weather_api_tool`. -/
def exnDesc (e : PyExn) : String := e.name ++ ": " ++ e.msg

/-- Body of `text_analyzer_tool` (tools.py lines 94-123), before the
`except`: `None` and empty (post-strip) text raise `ValueError`; otherwise
word count, character count and the keyword sentiment vote are computed.  The
negative-sentiment reason interpolates `neg_hits` into both slots, exactly as
the source line 113 does. -/
def text_analyzer_body (text : Option String) : PyResult TextAnalysis :=
  match text with
  | none => .raised ⟨"ValueError", "Text is None."⟩
  | some t =>
      if pyStrip t = "" then .raised ⟨"ValueError", "Text is empty."⟩
      else
        let tokens := wordRuns (pyStrip t).toList
        let lower := tokens.map pyLower
        let posHits := (lower.filter (fun s => posWords.contains s)).length
        let negHits := (lower.filter (fun s => negWords.contains s)).length
        let sentiment :=
          if posHits > negHits then "positive"
          else if negHits > posHits then "negative"
          else "neutral"
        let reason :=
          if posHits > negHits then
            "More positive keywords (" ++ natRepr posHits ++ ") than negative keywords (" ++ natRepr negHits ++ ")."
          else if negHits > posHits then
            "More negative keywords (" ++ natRepr negHits ++ ") than positive keywords (" ++ natRepr negHits ++ ")."
          else
            "Equal/zero keyword hits (pos=" ++ natRepr posHits ++ ", neg=" ++ natRepr negHits ++ ")."
        .ok (.result tokens.length t.length sentiment reason)

/-- `text_analyzer_tool` (tools.py lines 83-125): the body wrapped in
`try/except Exception` returning the in-band error dictionary. -/
def text_analyzer_tool (text : Option String) : PyResult TextAnalysis :=
  toolBoundary (text_analyzer_body text) (fun e => .errDict (exnDesc e))

/-! ## tools.py — date utility tool

A `datetime.date` is modelled by its proleptic Gregorian ordinal
(`date(1,1,1)` is ordinal 1), the representation CPython itself uses.
`date.min` is ordinal 1 and `date.max` (9999-12-31) is ordinal 3652059;
`date + timedelta(days=n)` raises `OverflowError` outside that range.
-/

/-- Last valid ordinal: `date.max.toordinal()`, i.e. 9999-12-31. -/
def dateMaxOrdinal : Int := 3652059

/-- `date + timedelta(days=delta)`: the shifted ordinal, or the
`OverflowError` CPython raises when the result leaves the supported
calendar. -/
def pyDateAdd (ordinal delta : Int) : PyResult Int :=
  if 1 ≤ ordinal + delta ∧ ordinal + delta ≤ dateMaxOrdinal then .ok (ordinal + delta)
  else .raised ⟨"OverflowError", "date value out of range"⟩

/-- Proleptic Gregorian ordinal to (year, month, day), the standard
civil-from-days algorithm (validated below on the epochs of the calendar:
ordinal 1 is 0001-01-01, 719163 is 1970-01-01, 3652059 is 9999-12-31). -/
def civilFromOrdinal (o : Int) : Int × Int × Int :=
  let z := o - 719163 + 719468
  let era := Int.fdiv z 146097
  let doe := z - era * 146097
  let yoe := Int.fdiv (doe - Int.fdiv doe 1460 + Int.fdiv doe 36524 - Int.fdiv doe 146096) 365
  let y := yoe + era * 400
  let doy := doe - (365 * yoe + Int.fdiv yoe 4 - Int.fdiv yoe 100)
  let mp := Int.fdiv (5 * doy + 2) 153
  let d := doy - Int.fdiv (153 * mp + 2) 5 + 1
  let m := mp + (if mp < 10 then 3 else -9)
  (if m ≤ 2 then y + 1 else y, m, d)

def digitChar (n : Int) : Char := Char.ofNat (48 + (Int.emod n 10).toNat)

def pad4 (y : Int) : String :=
  String.mk [digitChar (Int.fdiv y 1000), digitChar (Int.fdiv y 100), digitChar (Int.fdiv y 10), digitChar y]

def pad2 (m : Int) : String := String.mk [digitChar (Int.fdiv m 10), digitChar m]

/-- `date.isoformat()`: the `YYYY-MM-DD` rendering of an ordinal. -/
def isoDate (o : Int) : String :=
  let c := civilFromOrdinal o
  pad4 c.1 ++ "-" ++ pad2 c.2.1 ++ "-" ++ pad2 c.2.2

/-- The argument Python passes for `days`: `None`, an `int`, or a value of
any other type (carrying its type name), matching the source's two explicit
argument checks. -/
inductive DaysArg where
  | noneA
  | intA (n : Int)
  | otherA (typeName : String)
  deriving DecidableEq, Repr

/-- Body of `date_utility_tool` (tools.py lines 141-146): `None` raises
`ValueError`, a non-`int` raises `TypeError`, otherwise
`(date.today() + timedelta(days=days)).isoformat()`.  `today` is the ordinal
of the current day, passed explicitly (the system clock is an input of the
model). -/
def date_utility_body (today : Int) (days : DaysArg) : PyResult String :=
  match days with
  | .noneA => .raised ⟨"ValueError", "Days is None."⟩
  | .otherA _ => .raised ⟨"TypeError", "Days must be an integer."⟩
  | .intA n => (pyDateAdd today n).map isoDate

/-- `date_utility_tool` (tools.py lines 131-148): the body wrapped in
`try/except Exception` returning the in-band `"ERROR: ..."` string. -/
def date_utility_tool (today : Int) (days : DaysArg) : PyResult String :=
  toolBoundary (date_utility_body today days) errString

/-! ## tools.py — weather tool (`_http_get_json`, `weather_api_tool`) -/

/-- The names bound at module level in tools.py, in source order: the
`__future__` import, the imports (`import ast`, `import json`,
`import operator as op`, `import re`, `import urllib.parse`,
`import urllib.request` — both of which bind `urllib`,
`from datetime import date, timedelta`, `from typing import Optional`,
`from langchain_core.tools import tool`) and the module-level definitions.
`os` is never imported. -/
def toolsModuleGlobals : List String :=
  ["annotations", "ast", "json", "op", "re", "urllib", "date", "timedelta",
   "Optional", "tool", "_ALLOWED_BIN_OPS", "_ALLOWED_UNARY_OPS",
   "_safe_eval_math", "math_tool", "_POS_WORDS", "_NEG_WORDS",
   "text_analyzer_tool", "date_utility_tool", "_http_get_json",
   "weather_api_tool"]

/-- The `location` object of a Weatherstack response, restricted to the fields
the tool reads. -/
structure WSLocation where
  locName : Option String
  region : Option String
  country : Option String
  localtime : Option String
  deriving DecidableEq, Repr

/-- The `current` object of a Weatherstack response, restricted to the fields
the tool reads. -/
structure WSCurrent where
  observation_time : Option String
  temperature : Option Int
  feelslike : Option Int
  weather_descriptions : Option (List String)
  wind_speed : Option Int
  wind_dir : Option String
  humidity : Option Int
  deriving DecidableEq, Repr

/-- A parsed Weatherstack JSON response: an optional truthy `error` object
(abstracted to its description) and the optional `location` and `current`
objects (`none` models both a missing key and a falsy value, which the
source's `if not location or not current` treats alike). -/
structure WSResponse where
  errorObj : Option String
  location : Option WSLocation
  current : Option WSCurrent
  deriving DecidableEq, Repr

/-- Result of `weather_api_tool`: the trimmed success payload, or the in-band
`{"error": ...}` dictionary. -/
inductive WeatherOut where
  | success (location : WSLocation) (current : WSCurrent)
  | errDict (desc : String)
  deriving DecidableEq, Repr

/-- Body of `weather_api_tool` (tools.py lines 171-211) before the `except`.
An empty or whitespace-only city raises `ValueError`.  The next statement,
`api_key = os.getenv("WEATHERSTACK_API_KEY") or "..."`, resolves the name
`os`, which is not among `toolsModuleGlobals` (tools.py has no `import os`),
so CPython raises `NameError` here; the model performs the same lookup against
the module's global namespace.  The rest of the body (URL construction, the
HTTP request via `_http_get_json` — abstracted as the `http` oracle mapping a
URL to a parsed response or a raised exception — the error-object check and
the field extraction) follows the source but is unreachable while `os` is
missing. -/
def weather_api_body (env : String → Option String)
    (http : String → PyResult WSResponse)
    (city : String) (country : Option String) : PyResult WeatherOut :=
  if city = "" ∨ pyStrip city = "" then .raised ⟨"ValueError", "City is required."⟩
  else if "os" ∈ toolsModuleGlobals then
    let apiKey := (env "WEATHERSTACK_API_KEY").getD "4d1d8ae207a8c845a52df8a67bf3623e"
    let query := match country with
      | some co => if co = "" then city else city ++ ", " ++ co
      | none => city
    let url := "https://api.weatherstack.com/current" ++ "?" ++
      "access_key=" ++ apiKey ++ "&query=" ++ query
    (http url).bind fun data =>
      match data.errorObj with
      | some err => .ok (.errDict err)
      | none =>
          match data.location, data.current with
          | some loc, some cur => .ok (.success loc cur)
          | _, _ => .ok (.errDict "Unexpected Weatherstack response (missing location or current).")
  else .raised ⟨"NameError", "name os is not defined"⟩

/-- `weather_api_tool` (tools.py lines 160-214): the body wrapped in
`try/except Exception` returning the in-band error dictionary. -/
def weather_api_tool (env : String → Option String)
    (http : String → PyResult WSResponse)
    (city : String) (country : Option String) : PyResult WeatherOut :=
  toolBoundary (weather_api_body env http city country) (fun e => .errDict (exnDesc e))

/-! ## agent.py — module import (line 12) -/

/-- The names agent.py line 12 imports from the tools module, in source
order: `from tools import math_calculator, date_utility_tool, get_weather,
analyze_text`. -/
def agentToolImports : List String :=
  ["math_calculator", "date_utility_tool", "get_weather", "analyze_text"]

/-- Python's `from M import a, b, ...`: each requested name is looked up in
the module's namespace in order; the first missing name raises
`ImportError` and aborts the import (and with it the importing module's
initialization). -/
def fromImport (moduleNames : List String) : List String → PyResult Unit
  | [] => .ok ()
  | n :: rest =>
      if moduleNames.contains n then fromImport moduleNames rest
      else .raised ⟨"ImportError", "cannot import name " ++ n ++ " from tools"⟩

/-- Loading the agent module: executing agent.py runs its top-level imports;
line 12 is the first statement that can fail, and everything else in the
module (tool registry, `retrieve_memories`, `invoke_agent_with_memory`, the
module-level `create_agent` call) only runs if it succeeds. -/
def loadAgentModule : PyResult Unit :=
  fromImport toolsModuleGlobals agentToolImports

/-! ## agent.py — memory gateway (`retrieve_memories`, `save_interaction`) -/

/-- Python's `query.strip().split()`: whitespace-separated tokens (maximal
runs of non-whitespace characters; leading/trailing whitespace contributes
nothing). -/
def pyWords (s : String) : List String :=
  charRuns (fun c => !c.isWhitespace) s.toList

/-- One call to `mem0.search`, as issued by `retrieve_memories`: the query,
the `user_id` filter, and the `limit` argument. -/
structure MemSearchReq where
  query : String
  userId : String
  limit : Nat
  deriving DecidableEq, Repr

/-- `retrieve_memories` (agent.py lines 60-91).  The memory store is the
oracle `search` (query → user id → limit → result list of memory texts, or a
raised exception).  Returns the serialized memory context together with the
list of store calls issued, so that the short-circuit ("without contacting
the store") is itself part of the modelled behavior: a query of fewer than 3
words returns `""` with no store call; otherwise one call with `limit=5` is
made, an empty result list or a store exception (the `except Exception`
handler, which logs and returns `""`) yields `""`, and a non-empty list is
serialized as `"- fact"` lines joined by newlines. -/
def retrieve_memories (search : String → String → Nat → PyResult (List String))
    (query userId : String) : String × List MemSearchReq :=
  if (pyWords query).length < 3 then ("", [])
  else
    match search query userId 5 with
    | .ok results =>
        (if results.isEmpty then ""
         else String.intercalate "\n" (results.map (fun m => "- " ++ m)),
         [⟨query, userId, 5⟩])
    | .raised _ => ("", [⟨query, userId, 5⟩])

/-- `save_interaction` (agent.py lines 94-113).  The store write is the
oracle `add` (messages → user id → ack or raised exception).  The whole body
is wrapped in `try/except Exception`, which logs and swallows, so the
function returns normally on both paths; the `PyResult Unit` type records
that no exception propagates to the caller. -/
def save_interaction (add : List (String × String) → String → PyResult (List String))
    (userId userInput assistantResponse : String) : PyResult Unit :=
  match add [("user", userInput), ("assistant", assistantResponse)] userId with
  | .ok _ => .ok ()
  | .raised _ => .ok ()

/-! ## agent.py — context assembly (`invoke_agent_with_memory`, lines 157-179) -/

/-- LangChain message roles. -/
inductive Role where
  | system | user | assistant | toolMsg
  deriving DecidableEq, Repr

structure ChatMsg where
  role : Role
  content : String
  deriving DecidableEq, Repr

/-- The body of the memory-context block of the enhanced system prompt: the
text strictly between the `## MEMORY CONTEXT` heading and the `Rules:` label
in the f-string of agent.py lines 166-175 — the interpolated
`{memory_context}` surrounded by the f-string's own line breaks and
indentation. -/
def memoryBlockBody (memoryContext : String) : String :=
  "\n    " ++ memoryContext ++ "\n\n    "

/-- The fixed Rules block closing the enhanced system prompt (agent.py lines
171-175). -/
def rulesLabelText : String :=
  "Rules:\n    - Use memory facts if available\n    - If user\x27s name is known, use it\n    - Do NOT say you lack personal info if memory exists\n    "

/-- The enhanced system prompt content: the f-string of agent.py lines
166-175, `{system_prompt.content}` followed by the delimited memory-context
block (heading, then the interpolated `{memory_context}` verbatim) and the
rules block. -/
def enhanced_system_content (basePrompt memoryContext : String) : String :=
  basePrompt ++ ("\n\n    " ++ ("## MEMORY CONTEXT" ++ (memoryBlockBody memoryContext ++ rulesLabelText)))

/-- The message sequence `invoke_agent_with_memory` hands to the model
(agent.py line 179): `[enhanced_system_prompt] + messages["messages"][1:]` —
a fresh system message holding the enhanced content, followed by the input
sequence with its first element dropped. -/
def invoke_agent_messages (basePrompt memoryContext : String)
    (messages : List ChatMsg) : List ChatMsg :=
  ⟨.system, enhanced_system_content basePrompt memoryContext⟩ :: messages.drop 1

/-- Number of system messages in a sequence. -/
def countSystem (l : List ChatMsg) : Nat :=
  (l.filter (fun m => m.role = .system)).length

/-! ## Agent loop (tool-calling controller) -/

/-- A tool invocation requested by the model: tool name and serialized
arguments. -/
structure ToolCallReq where
  toolName : String
  args : String
  deriving DecidableEq, Repr

/-- A model response: either a final answer or a batch of tool calls. -/
inductive ModelDecision where
  | finalAnswer (content : String)
  | toolCallBatch (calls : List ToolCallReq)
  deriving DecidableEq, Repr

/-- Abort reasons of the agent loop. -/
inductive AgentErr where
  | modelInvocationError
  deriving DecidableEq, Repr

/-- Modelled from the spec: the tool-calling decision loop itself lives in
the LangChain library (`create_agent(...).invoke`, agent.py lines 183-184)
and is not part of this repository's sources; it is modelled from spec
sections 4.4 and 7.  Per cycle the current conversation is submitted to the
model (`decideNext`); a `finalAnswer` terminates the loop, a `toolCallBatch`
executes every request (`execTool`, appending one tool message per result)
and loops.  When the configured maximum number of cycles is exhausted the
loop aborts with `ModelInvocationError`.  The returned pair is the outcome
together with the number of model calls made. -/
def agent_loop (decideNext : List ChatMsg → ModelDecision)
    (execTool : ToolCallReq → ChatMsg) :
    Nat → List ChatMsg → PyResult String × Nat
  | 0, _ => (.raised ⟨"ModelInvocationError", "maximum iterations reached"⟩, 0)
  | fuel + 1, st =>
      match decideNext st with
      | .finalAnswer c => (.ok c, 1)
      | .toolCallBatch calls =>
          let next := agent_loop decideNext execTool fuel (st ++ calls.map execTool)
          (next.1, next.2 + 1)

/-! ## Remaining definitions used by the theorems -/

/-- Agreement between the specification-side evaluator and the code's
evaluator: equal values on success, and simultaneous failure (with the code's
own exception taxonomy) otherwise. -/
def EvalAgrees : Except SpecErr Frac → PyResult Frac → Prop
  | .ok a, .ok b => a = b
  | .error _, .raised _ => True
  | _, _ => False

/-- Decidable equality of spec-evaluator results, so that witnesses can be
checked by `decide`. -/
instance : DecidableEq (Except SpecErr Frac) := fun x y =>
  match x, y with
  | .ok a, .ok b =>
      if h : a = b then isTrue (by rw [h])
      else isFalse (by intro hh; cases hh; exact h rfl)
  | .error a, .error b =>
      if h : a = b then isTrue (by rw [h])
      else isFalse (by intro hh; cases hh; exact h rfl)
  | .ok _, .error _ => isFalse (by intro hh; cases hh)
  | .error _, .ok _ => isFalse (by intro hh; cases hh)

/-- The parsed form of the input string `"1/10**13"`. -/
def snapExpr : PyExpr :=
  .binOp .div (.const (.intC 1)) (.binOp .pow (.const (.intC 10)) (.const (.intC 13)))

/-- The proleptic Gregorian ordinal of 2026-10-12, used as a concrete value
of `date.today()` in witnesses. -/
def sampleToday : Int := 739901

/-! ## Grounding `Frac` in Mathlib rationals

`Frac` is this development's executable fraction arithmetic, shared by the
code-side and specification-side evaluators.  To rule out a bug corrupting
both evaluators alike, the arithmetic is proved sound against Mathlib's `ℚ`:
`Frac.toRat` maps every operation to the corresponding field operation, and a
third, independent specification evaluator over `ℚ` (`specEvalQ`) is proved
to agree with `specEval`.
-/

/-- The rational value of a fraction. -/
def Frac.toRat (a : Frac) : ℚ := (a.num : ℚ) / (a.den : ℚ)

/-- A well-formed fraction: positive denominator, lowest terms.  Every value
produced by `Frac.norm`, `Frac.ofInt` or `Frac.neg` — hence every value the
evaluators compute — is reduced. -/
def Frac.Reduced (a : Frac) : Prop := 0 < a.den ∧ Int.gcd a.num a.den = 1

/-- Modelled from the spec: `specBinApply` restated over Mathlib's `ℚ` — the
standard field operations, `Int.floor` and `zpow` — with the same error
taxonomy. -/
def specBinApplyQ : PyBinOp → ℚ → ℚ → Except SpecErr ℚ
  | .add, a, b => .ok (a + b)
  | .sub, a, b => .ok (a - b)
  | .mult, a, b => .ok (a * b)
  | .div, a, b => if b = 0 then .error .divisionByZero else .ok (a / b)
  | .floorDiv, a, b => if b = 0 then .error .divisionByZero else .ok (⌊a / b⌋ : ℚ)
  | .mod, a, b => if b = 0 then .error .divisionByZero else .ok (a - b * (⌊a / b⌋ : ℚ))
  | .pow, a, b =>
      if b.den = 1 then
        if a = 0 ∧ b.num < 0 then .error .divisionByZero
        else .ok (a ^ b.num)
      else .error .nonIntegralPow
  | _, _, _ => .error .unsupportedSyntax

/-- Modelled from the spec: `specEval` restated over Mathlib's `ℚ`. -/
def specEvalQ : PyExpr → Except SpecErr ℚ
  | .const (.intC n) => .ok (n : ℚ)
  | .const (.floatC m e) => .ok ((m : ℚ) / 2 ^ e)
  | .const (.boolC b) => .ok (if b then 1 else 0)
  | .const _ => .error .unsupportedSyntax
  | .unaryOp .uAdd e => specEvalQ e
  | .unaryOp .uSub e =>
      match specEvalQ e with
      | .ok a => .ok (-a)
      | .error er => .error er
  | .unaryOp _ _ => .error .unsupportedSyntax
  | .binOp op l r =>
      if specArithOp op then
        match specEvalQ l with
        | .error er => .error er
        | .ok a =>
            match specEvalQ r with
            | .error er => .error er
            | .ok b => specBinApplyQ op a b
      else .error .unsupportedSyntax
  | .name _ => .error .unsupportedSyntax
  | .call _ => .error .unsupportedSyntax
  | .attrAccess _ _ => .error .unsupportedSyntax

/-! ## Helper lemmas -/

theorem toolBoundary_isOk {α : Type} (body : PyResult α) (enc : PyExn → α) :
    (toolBoundary body enc).isOk = true := by
  cases body <;> rfl

theorem toolBoundary_of_raised {α : Type} {body : PyResult α} {enc : PyExn → α}
    {ex : PyExn} (h : body = .raised ex) : toolBoundary body enc = .ok (enc ex) := by
  rw [h]; rfl

theorem countSystem_nil_of_no_system (l : List ChatMsg)
    (h : ∀ m ∈ l, m.role ≠ Role.system) : countSystem l = 0 := by
  induction l with
  | nil => rfl
  | cons m t ih =>
      have hm : m.role ≠ Role.system := h m (by simp)
      have ht := ih (fun x hx => h x (by simp [hx]))
      simp only [countSystem, List.filter_cons] at ht ⊢
      simp [hm, ht]

theorem countSystem_cons_system (c : String) (l : List ChatMsg) :
    countSystem (⟨Role.system, c⟩ :: l) = countSystem l + 1 := by
  simp [countSystem, List.filter_cons]

/-! ## Claims -/

/-- C2: agent.py line 12 imports `math_calculator`, `get_weather` and
`analyze_text` from the tools module, but tools.py binds none of those names
(its tool functions are `math_tool`, `text_analyzer_tool`,
`date_utility_tool`, `weather_api_tool`), so loading the agent module raises
`ImportError` at the first missing name and nothing after line 12 — the tool
registry, the agent construction, any agent invocation — is ever reached. -/
theorem agent_module_import_fails :
    loadAgentModule = .raised ⟨"ImportError", "cannot import name math_calculator from tools"⟩ ∧
    toolsModuleGlobals.contains "math_calculator" = false ∧
    toolsModuleGlobals.contains "get_weather" = false ∧
    toolsModuleGlobals.contains "analyze_text" = false ∧
    toolsModuleGlobals.contains "math_tool" = true ∧
    toolsModuleGlobals.contains "text_analyzer_tool" = true ∧
    toolsModuleGlobals.contains "date_utility_tool" = true ∧
    toolsModuleGlobals.contains "weather_api_tool" = true := by
  refine ⟨?_, ?_, ?_, ?_, ?_, ?_, ?_, ?_⟩ <;> decide

/-- C3 (counterexample): the claim "the sequence handed to the model contains
exactly one system message" fails on an accepted input whose tail contains a
system message: `invoke_agent_with_memory` only drops the first input message
(agent.py line 179), so a system message at position 2 survives and the model
receives two system messages. -/
theorem invoke_messages_two_system_counterexample :
    countSystem (invoke_agent_messages "policy" ""
      [⟨.system, "a"⟩, ⟨.user, "b"⟩, ⟨.system, "c"⟩]) = 2 := by
  decide

/-- C3 (amended): the sequence handed to the model is the enhanced system
message followed by the input sequence with its first element removed,
unchanged and in order; it contains exactly one system message, placed first,
whenever no message of the input sequence after the first is itself a system
message. -/
theorem invoke_messages_structure (basePrompt memoryContext : String)
    (messages : List ChatMsg) :
    (invoke_agent_messages basePrompt memoryContext messages).head? =
      some ⟨.system, enhanced_system_content basePrompt memoryContext⟩ ∧
    (invoke_agent_messages basePrompt memoryContext messages).drop 1 = messages.drop 1 ∧
    ((∀ m ∈ messages.drop 1, m.role ≠ Role.system) →
      countSystem (invoke_agent_messages basePrompt memoryContext messages) = 1) := by
  refine ⟨rfl, rfl, fun h => ?_⟩
  show countSystem (⟨Role.system, enhanced_system_content basePrompt memoryContext⟩ ::
    messages.drop 1) = 1
  rw [countSystem_cons_system, countSystem_nil_of_no_system (messages.drop 1) h]

/-- Witness for C3 (amended) at a concrete conversation whose tail has no
system message. -/
theorem invoke_messages_structure_witness :
    countSystem (invoke_agent_messages "policy" "- name is Hemant"
      [⟨.system, "old"⟩, ⟨.user, "what is my name"⟩]) = 1 :=
  (invoke_messages_structure "policy" "- name is Hemant"
    [⟨.system, "old"⟩, ⟨.user, "what is my name"⟩]).2.2 (by decide)

/-- C4: a query of fewer than 3 whitespace-separated words makes
`retrieve_memories` return the empty context without issuing any store call,
and every store call it ever issues requests at most 5 facts (`limit=5`). -/
theorem retrieve_memories_short_circuit
    (search : String → String → Nat → PyResult (List String))
    (query userId : String) :
    ((pyWords query).length < 3 → retrieve_memories search query userId = ("", [])) ∧
    (∀ r ∈ (retrieve_memories search query userId).2, r.limit ≤ 5) := by
  constructor
  · intro h
    simp [retrieve_memories, h]
  · intro r hr
    by_cases h : (pyWords query).length < 3
    · simp [retrieve_memories, h] at hr
    · simp only [retrieve_memories, h, if_false] at hr
      cases hs : search query userId 5 <;> simp [hs] at hr <;> simp [hr]

/-- Witness for C4: the 1-word query `"hi"` yields the empty context and an
empty store-call log, and the store call issued for a 4-word query carries
`limit = 5`. -/
theorem retrieve_memories_short_circuit_witness :
    retrieve_memories (fun _ _ _ => .ok ["likes tea"]) "hi" "Hemant" = ("", []) ∧
    (⟨"what is my name", "Hemant", 5⟩ : MemSearchReq).limit ≤ 5 :=
  ⟨(retrieve_memories_short_circuit (fun _ _ _ => .ok ["likes tea"]) "hi" "Hemant").1
      (by decide),
   (retrieve_memories_short_circuit (fun _ _ _ => .ok ["likes tea"]) "what is my name"
      "Hemant").2 ⟨"what is my name", "Hemant", 5⟩ (by decide)⟩

/-- C5: a raised store exception is recovered locally on both memory paths:
`retrieve_memories` returns the empty context instead of propagating (its
`except Exception` handler), and `save_interaction` returns normally instead
of propagating (its `except Exception` handler), so neither failure can abort
the turn or the delivered answer. -/
theorem memory_failures_recovered
    (search : String → String → Nat → PyResult (List String))
    (add : List (String × String) → String → PyResult (List String))
    (query userId userInput assistantResponse : String) (ex : PyExn) :
    (search query userId 5 = .raised ex →
      (retrieve_memories search query userId).1 = "") ∧
    (add [("user", userInput), ("assistant", assistantResponse)] userId = .raised ex →
      save_interaction add userId userInput assistantResponse = .ok ()) := by
  constructor
  · intro h
    by_cases hw : (pyWords query).length < 3
    · simp [retrieve_memories, hw]
    · simp [retrieve_memories, hw, h]
  · intro h
    simp [save_interaction, h]

/-- Witness for C5 with a store stub whose search and add always raise. -/
theorem memory_failures_recovered_witness :
    (retrieve_memories (fun _ _ _ => .raised ⟨"Exception", "mem0 unavailable"⟩)
      "what is my name" "Hemant").1 = "" ∧
    save_interaction (fun _ _ => .raised ⟨"Exception", "mem0 unavailable"⟩)
      "Hemant" "hello there" "hi" = .ok () :=
  ⟨(memory_failures_recovered (fun _ _ _ => .raised ⟨"Exception", "mem0 unavailable"⟩)
      (fun _ _ => .raised ⟨"Exception", "mem0 unavailable"⟩)
      "what is my name" "Hemant" "hello there" "hi"
      ⟨"Exception", "mem0 unavailable"⟩).1 rfl,
   (memory_failures_recovered (fun _ _ _ => .raised ⟨"Exception", "mem0 unavailable"⟩)
      (fun _ _ => .raised ⟨"Exception", "mem0 unavailable"⟩)
      "what is my name" "Hemant" "hello there" "hi"
      ⟨"Exception", "mem0 unavailable"⟩).2 rfl⟩

/-- C7: for every environment, HTTP oracle, city and country,
`weather_api_tool` returns an in-band error dictionary and never a successful
weather payload: an empty city fails its argument check, and any other city
reaches `os.getenv` (tools.py line 176), whose name lookup fails because
tools.py never imports `os` — the resulting `NameError` is converted by the
`except Exception` handler into `{"error": ...}`. -/
theorem weather_tool_always_errors (env : String → Option String)
    (http : String → PyResult WSResponse) (city : String) (country : Option String) :
    ∃ desc, weather_api_tool env http city country = .ok (.errDict desc) := by
  unfold weather_api_tool weather_api_body
  by_cases h1 : city = "" ∨ pyStrip city = ""
  · exact ⟨"ValueError: " ++ "City is required.", by simp [h1, toolBoundary, exnDesc]⟩
  · refine ⟨"NameError: " ++ "name os is not defined", ?_⟩
    have hos : ("os" ∈ toolsModuleGlobals) = False := by simp [toolsModuleGlobals]
    simp [h1, hos, toolBoundary, exnDesc]

set_option maxRecDepth 4000 in
/-- C8 (counterexample): with an empty recall (here: the store returns no
results for a 4-word query, so `retrieve_memories` yields `""`), the
memory-context block of the enhanced system message is whitespace-only — the
f-string interpolates the empty context verbatim and inserts no "no memory"
marker; for a concrete base prompt the whole message is just the base prompt
followed by the fixed heading/rules text. -/
theorem memory_block_no_marker_counterexample :
    (retrieve_memories (fun _ _ _ => .ok []) "what is my name" "Hemant").1 = "" ∧
    (memoryBlockBody "").toList.all Char.isWhitespace = true ∧
    enhanced_system_content "POLICY" "" =
      "POLICY\n\n    ## MEMORY CONTEXT\n    \n\n    Rules:\n    - Use memory facts if available\n    - If user\x27s name is known, use it\n    - Do NOT say you lack personal info if memory exists\n    " := by
  refine ⟨?_, ?_, ?_⟩ <;> decide

/-- C8 (amended): the system message always contains the delimited
`## MEMORY CONTEXT` block, whose body is the recalled context interpolated
verbatim surrounded only by whitespace; when the recalled fact list is empty
the block body is whitespace only — no explicit "no memory" marker is
inserted. -/
theorem memory_block_structure (basePrompt memoryContext : String) :
    enhanced_system_content basePrompt memoryContext =
      basePrompt ++ ("\n\n    " ++ ("## MEMORY CONTEXT" ++
        (memoryBlockBody memoryContext ++ rulesLabelText))) ∧
    (memoryBlockBody memoryContext).toList =
      "\n    ".toList ++ memoryContext.toList ++ "\n\n    ".toList ∧
    (memoryContext = "" → (memoryBlockBody memoryContext).toList.all Char.isWhitespace = true) := by
  refine ⟨rfl, rfl, fun h => ?_⟩
  rw [h]; decide

/-- Witness for C8 (amended) at the empty memory context. -/
theorem memory_block_structure_witness :
    (memoryBlockBody "").toList.all Char.isWhitespace = true :=
  (memory_block_structure "POLICY" "").2.2 rfl

/-- C9 (counterexample): the round-trip claim fails for `N = 4000000` with
today = 2026-10-12 (ordinal 739901): the shifted date leaves the supported
calendar (`date.max` is 9999-12-31), so the tool returns an `OverflowError`
string rather than a date, and no `-N` shift can return to the original
date — composing the two shifts is an error, not the original ordinal. -/
theorem date_tool_overflow_counterexample :
    date_utility_tool sampleToday (.intA 4000000) =
      .ok "ERROR: OverflowError: date value out of range" ∧
    (pyDateAdd sampleToday 4000000).bind (fun r => pyDateAdd r (-4000000)) =
      .raised ⟨"OverflowError", "date value out of range"⟩ := by
  constructor <;> decide

/-- C9 (amended): for today's date anywhere in the supported calendar,
`date_utility_tool 0` returns today's date as an ISO-8601 string, and for
every integer `N` whose shift stays within the supported calendar
(`date.min` ordinal 1 to `date.max` ordinal 3652059), the `-N`-day shift
starting from the result returns the original date, both as ordinals and
through the tool. -/
theorem date_tool_roundtrip (today n r : Int)
    (h1 : 1 ≤ today) (h2 : today ≤ dateMaxOrdinal) :
    date_utility_tool today (.intA 0) = .ok (isoDate today) ∧
    (pyDateAdd today n = .ok r →
      pyDateAdd r (-n) = .ok today ∧
      date_utility_tool r (.intA (-n)) = .ok (isoDate today)) := by
  have h0 : pyDateAdd today 0 = .ok today := by
    simp only [pyDateAdd]
    rw [if_pos (by omega)]
    norm_num
  constructor
  · simp [date_utility_tool, date_utility_body, h0, toolBoundary, PyResult.map]
  · intro h
    have hr : r = today + n ∧ 1 ≤ today + n ∧ today + n ≤ dateMaxOrdinal := by
      by_cases hc : 1 ≤ today + n ∧ today + n ≤ dateMaxOrdinal
      · simp only [pyDateAdd, if_pos hc] at h
        cases h
        exact ⟨rfl, hc⟩
      · simp [pyDateAdd, if_neg hc] at h
    have hback : pyDateAdd r (-n) = .ok today := by
      simp only [pyDateAdd]
      rw [if_pos (by omega)]
      congr 1
      omega
    exact ⟨hback,
      by simp [date_utility_tool, date_utility_body, hback, toolBoundary, PyResult.map]⟩

/-- Witness for C9 (amended): today = 2026-10-12 (ordinal 739901), N = 45;
the shifted ordinal 739946 is 2026-11-26, and shifting it back by 45 days
returns 2026-10-12. -/
theorem date_tool_roundtrip_witness :
    date_utility_tool sampleToday (.intA 0) = .ok (isoDate sampleToday) ∧
    (pyDateAdd 739946 (-(45 : Int)) = .ok sampleToday ∧
      date_utility_tool 739946 (.intA (-45)) = .ok (isoDate sampleToday)) ∧
    isoDate sampleToday = "2026-10-12" ∧ isoDate 739946 = "2026-11-26" :=
  ⟨(date_tool_roundtrip sampleToday 45 739946 (by decide) (by decide)).1,
   (date_tool_roundtrip sampleToday 45 739946 (by decide) (by decide)).2 (by decide),
   by decide, by decide⟩

/-- C10: spec-modelled (the loop body lives in the LangChain library, not in
src/).  With a model stub that always requests tool calls and never emits a
final answer, the agent loop terminates by aborting after exactly the
configured maximum number of model-tool cycles, and the abort surfaces as a
`ModelInvocationError` result rather than a hang, for every starting
conversation. -/
theorem agent_loop_bounded (decideNext : List ChatMsg → ModelDecision)
    (execTool : ToolCallReq → ChatMsg) (maxIters : Nat) (st : List ChatMsg)
    (h : ∀ s, ∃ calls, decideNext s = .toolCallBatch calls) :
    agent_loop decideNext execTool maxIters st =
      (.raised ⟨"ModelInvocationError", "maximum iterations reached"⟩, maxIters) := by
  induction maxIters generalizing st with
  | zero => rfl
  | succ k ih =>
      obtain ⟨calls, hc⟩ := h st
      simp [agent_loop, hc, ih]

/-- Witness for C10: a stub that always requests one `math_tool` call, run
with a cap of 3 cycles from the empty conversation, aborts with
`ModelInvocationError` after exactly 3 model calls. -/
theorem agent_loop_bounded_witness :
    agent_loop (fun _ => .toolCallBatch [⟨"math_tool", "1+1"⟩])
      (fun c => ⟨.toolMsg, c.toolName⟩) 3 [] =
      (.raised ⟨"ModelInvocationError", "maximum iterations reached"⟩, 3) :=
  agent_loop_bounded (fun _ => .toolCallBatch [⟨"math_tool", "1+1"⟩])
    (fun c => ⟨.toolMsg, c.toolName⟩) 3 []
    (fun _ => ⟨[⟨"math_tool", "1+1"⟩], rfl⟩)

/-- C6: none of the four tool functions lets an exception cross the tool
boundary: on every input each returns a well-formed in-band result, and
whenever the tool body raises, the returned value is the body's exception
encoded in-band (an `"ERROR: ..."` string for the string tools, an
`{"error": ...}` dictionary for the dict tools). -/
theorem tools_never_raise (e : PyExpr) (text : Option String) (today : Int)
    (days : DaysArg) (env : String → Option String)
    (http : String → PyResult WSResponse) (city : String) (country : Option String) :
    (math_tool e).isOk = true ∧
    (text_analyzer_tool text).isOk = true ∧
    (date_utility_tool today days).isOk = true ∧
    (weather_api_tool env http city country).isOk = true ∧
    (match safe_eval_math e with
     | .raised ex => math_tool e = .ok (errString ex)
     | .ok _ => True) ∧
    (match text_analyzer_body text with
     | .raised ex => text_analyzer_tool text = .ok (.errDict (exnDesc ex))
     | .ok _ => True) ∧
    (match date_utility_body today days with
     | .raised ex => date_utility_tool today days = .ok (errString ex)
     | .ok _ => True) ∧
    (match weather_api_body env http city country with
     | .raised ex => weather_api_tool env http city country = .ok (.errDict (exnDesc ex))
     | .ok _ => True) := by
  refine ⟨toolBoundary_isOk _ _, toolBoundary_isOk _ _, toolBoundary_isOk _ _,
    toolBoundary_isOk _ _, ?_, ?_, ?_, ?_⟩
  · cases hs : safe_eval_math e <;>
      simp [math_tool, hs, toolBoundary, PyResult.map]
  · cases hs : text_analyzer_body text <;> simp [text_analyzer_tool, hs, toolBoundary]
  · cases hs : date_utility_body today days <;> simp [date_utility_tool, hs, toolBoundary]
  · cases hs : weather_api_body env http city country <;>
      simp [weather_api_tool, hs, toolBoundary]

theorem specBinApply_agree (op : PyBinOp) (a b : Frac) (h : specArithOp op = true) :
    ∃ f, allowedBinOps op = some f ∧ EvalAgrees (specBinApply op a b) (f a b) := by
  cases op
  case add => exact ⟨_, rfl, by simp [specBinApply, EvalAgrees]⟩
  case sub => exact ⟨_, rfl, by simp [specBinApply, EvalAgrees]⟩
  case mult => exact ⟨_, rfl, by simp [specBinApply, EvalAgrees]⟩
  case div =>
      refine ⟨_, rfl, ?_⟩
      by_cases hz : b.isZero = true <;> simp [specBinApply, pyTruediv, hz, EvalAgrees]
  case floorDiv =>
      refine ⟨_, rfl, ?_⟩
      by_cases hz : b.isZero = true <;> simp [specBinApply, pyFloordiv, hz, EvalAgrees]
  case mod =>
      refine ⟨_, rfl, ?_⟩
      by_cases hz : b.isZero = true <;> simp [specBinApply, pyMod, hz, EvalAgrees]
  case pow =>
      refine ⟨_, rfl, ?_⟩
      by_cases hi : b.isInt = true
      · by_cases hz : (a.isZero && decide (b.num < 0)) = true <;>
          simp [specBinApply, pyPow, hi, hz, EvalAgrees]
      · simp [specBinApply, pyPow, hi, EvalAgrees]
  all_goals exact absurd h (by decide)

theorem specEval_agree (e : PyExpr) : EvalAgrees (specEval e) (safe_eval_math e) := by
  induction e with
  | const c => cases c <;> simp [specEval, safe_eval_math, numericConstVal, EvalAgrees]
  | unaryOp u e ih =>
      cases u
      case uAdd =>
          simp only [specEval, safe_eval_math, allowedUnaryOps]
          cases hs : specEval e <;> cases hf : safe_eval_math e <;>
            (rw [hs, hf] at ih; simp [EvalAgrees, PyResult.map] at ih ⊢) <;> exact ih
      case uSub =>
          simp only [specEval, safe_eval_math, allowedUnaryOps]
          cases hs : specEval e <;> cases hf : safe_eval_math e <;>
            (rw [hs, hf] at ih; simp [EvalAgrees, PyResult.map] at ih ⊢) <;> simp [ih]
      case uNot =>
          simp [specEval, safe_eval_math, allowedUnaryOps, EvalAgrees]
      case uInvert =>
          simp [specEval, safe_eval_math, allowedUnaryOps, EvalAgrees]
  | binOp op l r ihl ihr =>
      by_cases hop : specArithOp op = true
      · obtain ⟨f, hf, _⟩ := specBinApply_agree op ⟨0, 1⟩ ⟨0, 1⟩ hop
        simp only [specEval, safe_eval_math, hop, if_true, hf]
        cases hsl : specEval l <;> cases hfl : safe_eval_math l <;>
          rw [hsl, hfl] at ihl <;> simp [EvalAgrees] at ihl
        · -- both left fail
          simp [EvalAgrees, PyResult.bind]
        · -- both left succeed with equal values
          subst ihl
          cases hsr : specEval r <;> cases hfr : safe_eval_math r <;>
            rw [hsr, hfr] at ihr <;> simp [EvalAgrees] at ihr
          · simp [EvalAgrees, PyResult.bind]
          · subst ihr
            simp only [PyResult.bind]
            obtain ⟨f', hf', hagree⟩ := specBinApply_agree op _ _ hop
            rw [hf] at hf'
            cases hf'
            exact hagree
      · have hop' : allowedBinOps op = none := by
          cases op <;> first | rfl | exact absurd rfl hop
        simp [specEval, safe_eval_math, hop, hop', EvalAgrees]
  | name s => simp [specEval, safe_eval_math, EvalAgrees]
  | call f ih => simp [specEval, safe_eval_math, EvalAgrees]
  | attrAccess e attrName ih => simp [specEval, safe_eval_math, EvalAgrees]

/-- C1 (amended): on every purely arithmetic expression (numeric constants,
unary `+`/`-`, the seven listed binary operators) whose standard-evaluator
value exists, `math_tool` returns that value as a string — but
integer-formatted (by truncation) whenever the value lies within `1e-12` of
its truncation, so near-integral values are reported as the snapped integer
rather than the exact evaluator value; on every other expression — any other
syntax (names, calls, attribute access, non-numeric constants, operators
outside the seven), or an arithmetic failure (division by zero, a power
outside the rational model) — it returns an in-band `"ERROR: ..."` string and
the offending syntax is never evaluated to a value. -/
theorem math_tool_matches_spec (e : PyExpr) :
    match specEval e with
    | .ok v =>
        math_tool e = .ok (if Frac.lt (Frac.abs (v.sub (Frac.ofInt v.trunc))) tol1e12
                           then intRepr v.trunc else fracRepr v)
    | .error _ => ∃ ex : PyExn, math_tool e = .ok ("ERROR: " ++ ex.name ++ ": " ++ ex.msg) := by
  have h := specEval_agree e
  cases hs : specEval e with
  | ok v =>
      rw [hs] at h
      cases hf : safe_eval_math e with
      | ok w =>
          rw [hf] at h
          simp only [EvalAgrees] at h
          subst h
          simp [math_tool, hf, toolBoundary, PyResult.map, mathRender]
      | raised ex =>
          rw [hf] at h
          simp [EvalAgrees] at h
  | error er =>
      rw [hs] at h
      cases hf : safe_eval_math e with
      | ok w =>
          rw [hf] at h
          simp [EvalAgrees] at h
      | raised ex =>
          exact ⟨ex, by simp [math_tool, hf, toolBoundary, PyResult.map, errString]⟩

set_option maxRecDepth 8000 in
/-- C1 (counterexample): on the input `"1/10**13"` the standard evaluator's
value is the non-integral, nonzero rational `1/10^13`, yet `math_tool`
returns the integer-formatted string `"0"` (the value is within `1e-12` of 0,
so the near-integer snap fires), which is not the evaluator's value under any
formatting — refuting the claim that the result always equals the value
produced by a standard expression evaluator, integer-formatted only when the
value is integral. -/
theorem math_tool_snap_counterexample :
    math_tool snapExpr = .ok "0" ∧
    specEval snapExpr = .ok ⟨1, 10000000000000⟩ ∧
    (⟨1, 10000000000000⟩ : Frac) ≠ Frac.ofInt 0 ∧
    Frac.isInt ⟨1, 10000000000000⟩ = false := by
  refine ⟨?_, ?_, ?_, ?_⟩ <;> decide

/-! ## Soundness of the fraction arithmetic with respect to `ℚ` -/

theorem Frac.norm_eq (n d : Int) :
    Frac.norm n d =
      if d < 0 then ⟨-(n / (Int.gcd n d : Nat)), -(d / (Int.gcd n d : Nat))⟩
      else ⟨n / (Int.gcd n d : Nat), d / (Int.gcd n d : Nat)⟩ := rfl

theorem Frac.norm_reduced (n d : Int) (hd : d ≠ 0) : (Frac.norm n d).Reduced := by
  have hg0 : 0 < Int.gcd n d := Int.gcd_pos_of_ne_zero_right n hd
  have hgpos : (0 : ℤ) < (Int.gcd n d : Nat) := by exact_mod_cast hg0
  have hdvd_d : ((Int.gcd n d : Nat) : ℤ) ∣ d := Int.gcd_dvd_right
  have hmul_d : d / ((Int.gcd n d : Nat) : ℤ) * ((Int.gcd n d : Nat) : ℤ) = d :=
    Int.ediv_mul_cancel hdvd_d
  have hcop := Int.gcd_div_gcd_div_gcd hg0
  rw [Frac.norm_eq]
  by_cases hneg : d < 0
  · have hdg : d / ((Int.gcd n d : Nat) : ℤ) < 0 := by
      rcases lt_trichotomy (d / ((Int.gcd n d : Nat) : ℤ)) 0 with h | h | h
      · exact h
      · rw [h, zero_mul] at hmul_d; exact absurd hmul_d.symm hd
      · nlinarith
    refine ⟨by simp [hneg]; omega, ?_⟩
    simpa [hneg, Int.gcd, Int.natAbs_neg] using hcop
  · have hdg : 0 < d / ((Int.gcd n d : Nat) : ℤ) := by
      rcases lt_trichotomy (d / ((Int.gcd n d : Nat) : ℤ)) 0 with h | h | h
      · nlinarith
      · rw [h, zero_mul] at hmul_d; exact absurd hmul_d.symm hd
      · exact h
    exact ⟨by simpa [hneg] using hdg, by simpa [hneg] using hcop⟩

theorem Frac.toRat_norm (n d : Int) (hd : d ≠ 0) :
    (Frac.norm n d).toRat = (n : ℚ) / (d : ℚ) := by
  have hg0 : 0 < Int.gcd n d := Int.gcd_pos_of_ne_zero_right n hd
  have hgpos : (0 : ℤ) < (Int.gcd n d : Nat) := by exact_mod_cast hg0
  have hgne : ((Int.gcd n d : Nat) : ℤ) ≠ 0 := ne_of_gt hgpos
  have hdvd_n : ((Int.gcd n d : Nat) : ℤ) ∣ n := Int.gcd_dvd_left
  have hdvd_d : ((Int.gcd n d : Nat) : ℤ) ∣ d := Int.gcd_dvd_right
  have hmul_n : n / ((Int.gcd n d : Nat) : ℤ) * ((Int.gcd n d : Nat) : ℤ) = n :=
    Int.ediv_mul_cancel hdvd_n
  have hmul_d : d / ((Int.gcd n d : Nat) : ℤ) * ((Int.gcd n d : Nat) : ℤ) = d :=
    Int.ediv_mul_cancel hdvd_d
  have hdg : d / ((Int.gcd n d : Nat) : ℤ) ≠ 0 := by
    intro h
    rw [h, zero_mul] at hmul_d
    exact hd hmul_d.symm
  have cross : n / ((Int.gcd n d : Nat) : ℤ) * d = n * (d / ((Int.gcd n d : Nat) : ℤ)) := by
    apply mul_right_cancel₀ hgne
    calc n / ((Int.gcd n d : Nat) : ℤ) * d * ((Int.gcd n d : Nat) : ℤ)
        = n / ((Int.gcd n d : Nat) : ℤ) * ((Int.gcd n d : Nat) : ℤ) * d := by ring
      _ = n * d := by rw [hmul_n]
      _ = n * (d / ((Int.gcd n d : Nat) : ℤ) * ((Int.gcd n d : Nat) : ℤ)) := by rw [hmul_d]
      _ = n * (d / ((Int.gcd n d : Nat) : ℤ)) * ((Int.gcd n d : Nat) : ℤ) := by ring
  have hdgQ : ((d / ((Int.gcd n d : Nat) : ℤ) : ℤ) : ℚ) ≠ 0 := Int.cast_ne_zero.mpr hdg
  have hdQ : ((d : ℤ) : ℚ) ≠ 0 := Int.cast_ne_zero.mpr hd
  rw [Frac.norm_eq]
  by_cases hneg : d < 0
  · simp only [hneg, if_true, Frac.toRat]
    push_cast
    rw [neg_div_neg_eq, div_eq_div_iff hdgQ hdQ]
    exact_mod_cast cross
  · simp only [hneg, if_false, Frac.toRat]
    rw [div_eq_div_iff hdgQ hdQ]
    exact_mod_cast cross

theorem Frac.ofInt_reduced (n : Int) : (Frac.ofInt n).Reduced :=
  ⟨by norm_num [Frac.ofInt], by simp [Frac.ofInt, Int.gcd]⟩

theorem Frac.toRat_ofInt (n : Int) : (Frac.ofInt n).toRat = (n : ℚ) := by
  simp [Frac.ofInt, Frac.toRat]

theorem Frac.neg_reduced {a : Frac} (ha : a.Reduced) : a.neg.Reduced :=
  ⟨ha.1, by simpa [Frac.neg, Int.gcd, Int.natAbs_neg] using ha.2⟩

theorem Frac.toRat_neg (a : Frac) : a.neg.toRat = -a.toRat := by
  simp [Frac.neg, Frac.toRat, neg_div]

theorem Frac.den_cast_ne_zero {a : Frac} (ha : 0 < a.den) : ((a.den : ℤ) : ℚ) ≠ 0 :=
  Int.cast_ne_zero.mpr (by omega)

theorem Frac.toRat_add {a b : Frac} (ha : 0 < a.den) (hb : 0 < b.den) :
    (a.add b).toRat = a.toRat + b.toRat := by
  rw [Frac.add, Frac.toRat_norm _ _ (by positivity)]
  rw [Frac.toRat, Frac.toRat]
  have hA := Frac.den_cast_ne_zero ha
  have hB := Frac.den_cast_ne_zero hb
  push_cast
  field_simp

theorem Frac.toRat_sub {a b : Frac} (ha : 0 < a.den) (hb : 0 < b.den) :
    (a.sub b).toRat = a.toRat - b.toRat := by
  rw [Frac.sub, Frac.toRat_norm _ _ (by positivity)]
  rw [Frac.toRat, Frac.toRat]
  have hA := Frac.den_cast_ne_zero ha
  have hB := Frac.den_cast_ne_zero hb
  push_cast
  field_simp
  ring

theorem Frac.toRat_mul {a b : Frac} (ha : 0 < a.den) (hb : 0 < b.den) :
    (a.mul b).toRat = a.toRat * b.toRat := by
  rw [Frac.mul, Frac.toRat_norm _ _ (by positivity)]
  rw [Frac.toRat, Frac.toRat]
  have hA := Frac.den_cast_ne_zero ha
  have hB := Frac.den_cast_ne_zero hb
  push_cast
  field_simp

theorem Frac.isZero_iff {a : Frac} (ha : 0 < a.den) :
    a.isZero = true ↔ a.toRat = 0 := by
  rw [Frac.isZero, Frac.toRat, div_eq_zero_iff]
  have hA := Frac.den_cast_ne_zero ha
  simp [hA]

theorem Frac.toRat_div {a b : Frac} (ha : 0 < a.den) (hb : 0 < b.den)
    (hz : b.isZero = false) : (a.div b).toRat = a.toRat / b.toRat := by
  have hnum : b.num ≠ 0 := by
    simpa [Frac.isZero] using hz
  rw [Frac.div, Frac.toRat_norm _ _ (by positivity)]
  rw [Frac.toRat, Frac.toRat]
  have hA := Frac.den_cast_ne_zero ha
  have hB := Frac.den_cast_ne_zero hb
  have hN : ((b.num : ℤ) : ℚ) ≠ 0 := Int.cast_ne_zero.mpr hnum
  push_cast
  field_simp

theorem Frac.floor_toRat {a : Frac} (ha : 0 < a.den) : a.floor = ⌊a.toRat⌋ := by
  have htn : ((a.den.toNat : ℕ) : ℤ) = a.den := Int.toNat_of_nonneg (by omega)
  have : a.toRat = (a.num : ℚ) / ((a.den.toNat : ℕ) : ℚ) := by
    rw [Frac.toRat]
    congr 1
    exact_mod_cast htn.symm
  rw [Frac.floor, this, Rat.floor_intCast_div_natCast, htn,
    Int.fdiv_eq_ediv _ (by omega)]

theorem Frac.toRat_num_den {a : Frac} (ha : a.Reduced) :
    a.toRat.num = a.num ∧ a.toRat.den = a.den.toNat := by
  obtain ⟨hpos, hcop⟩ := ha
  have hne : a.den.toNat ≠ 0 := by omega
  have hcop' : a.num.natAbs.Coprime a.den.toNat := by
    have : a.den.natAbs = a.den.toNat := by omega
    rw [← this]
    exact hcop
  have hmk : (⟨a.num, a.den.toNat, hne, hcop'⟩ : ℚ) = Rat.divInt a.num a.den.toNat :=
    Rat.mk'_eq_divInt
  have htn : ((a.den.toNat : ℕ) : ℤ) = a.den := Int.toNat_of_nonneg (by omega)
  have : a.toRat = (⟨a.num, a.den.toNat, hne, hcop'⟩ : ℚ) := by
    rw [hmk, Rat.divInt_eq_div, Frac.toRat, htn]
  rw [this]
  exact ⟨rfl, rfl⟩

theorem Frac.isInt_iff {a : Frac} (ha : a.Reduced) :
    a.isInt = true ↔ a.toRat.den = 1 := by
  obtain ⟨hnum, hden⟩ := Frac.toRat_num_den ha
  rw [Frac.isInt, hden]
  have := ha.1
  constructor
  · intro h
    simp only [decide_eq_true_eq] at h
    omega
  · intro h
    simp only [decide_eq_true_eq]
    omega

theorem Frac.lt_iff {a b : Frac} (ha : 0 < a.den) (hb : 0 < b.den) :
    Frac.lt a b = true ↔ a.toRat < b.toRat := by
  rw [Frac.lt, Frac.toRat, Frac.toRat,
    div_lt_div_iff₀ (by exact_mod_cast ha) (by exact_mod_cast hb)]
  simp only [decide_eq_true_eq]
  constructor
  · intro h; exact_mod_cast h
  · intro h; exact_mod_cast h

theorem Frac.powNat_reduced {a : Frac} (ha : a.Reduced) (k : Nat) :
    (a.powNat k).Reduced := by
  induction k with
  | zero => exact ⟨by norm_num [Frac.powNat], by simp [Frac.powNat, Int.gcd]⟩
  | succ m ih =>
      have hm : 0 < (a.powNat m).den := ih.1
      have hA : 0 < a.den := ha.1
      exact Frac.norm_reduced _ _ (by positivity)

theorem Frac.toRat_powNat {a : Frac} (ha : a.Reduced) (k : Nat) :
    (a.powNat k).toRat = a.toRat ^ k := by
  induction k with
  | zero => simp [Frac.powNat, Frac.toRat]
  | succ m ih =>
      rw [Frac.powNat, Frac.toRat_mul (Frac.powNat_reduced ha m).1 ha.1, ih, pow_succ]

theorem Frac.toRat_ne_zero {a : Frac} (ha : 0 < a.den) (hz : a.isZero = false) :
    a.toRat ≠ 0 := by
  intro h
  rw [← Frac.isZero_iff ha] at h
  rw [h] at hz
  cases hz

theorem Frac.powNat_ne_zero {a : Frac} (ha : a.Reduced) (hz : a.isZero = false) (k : Nat) :
    (a.powNat k).isZero = false := by
  have h1 : (a.powNat k).toRat = a.toRat ^ k := Frac.toRat_powNat ha k
  have h2 : a.toRat ≠ 0 := Frac.toRat_ne_zero ha.1 hz
  have h3 : (a.powNat k).toRat ≠ 0 := by
    rw [h1]
    exact pow_ne_zero k h2
  rcases h : (a.powNat k).isZero with _ | _
  · rfl
  · exact absurd ((Frac.isZero_iff (Frac.powNat_reduced ha k).1).mp h) h3

theorem Frac.toRat_powInt {a : Frac} (ha : a.Reduced) (k : Int)
    (h : a.isZero = false ∨ 0 ≤ k) : (a.powInt k).toRat = a.toRat ^ k := by
  cases k with
  | ofNat m =>
      rw [Frac.powInt, Frac.toRat_powNat ha]
      exact (zpow_natCast _ _).symm
  | negSucc m =>
      have hz : a.isZero = false := by
        rcases h with h | h
        · exact h
        · exact absurd h (not_le.mpr (Int.negSucc_lt_zero m))
      have hp := Frac.powNat_reduced ha (m + 1)
      have hpz := Frac.powNat_ne_zero ha hz (m + 1)
      rw [Frac.powInt, Frac.toRat_div (by norm_num) hp.1 hpz,
        Frac.toRat_powNat ha, zpow_negSucc]
      have : (⟨1, 1⟩ : Frac).toRat = 1 := by norm_num [Frac.toRat]
      rw [this, one_div]

theorem specBinApplyQ_agree (op : PyBinOp) (a b : Frac) (ha : a.Reduced) (hb : b.Reduced) :
    match specBinApply op a b with
    | .ok v => v.Reduced ∧ specBinApplyQ op a.toRat b.toRat = .ok v.toRat
    | .error er => specBinApplyQ op a.toRat b.toRat = .error er := by
  have hA : 0 < a.den := ha.1
  have hB : 0 < b.den := hb.1
  cases op
  case add =>
      simp only [specBinApply, specBinApplyQ]
      exact ⟨Frac.norm_reduced _ _ (by positivity), by rw [Frac.toRat_add hA hB]⟩
  case sub =>
      simp only [specBinApply, specBinApplyQ]
      exact ⟨Frac.norm_reduced _ _ (by positivity), by rw [Frac.toRat_sub hA hB]⟩
  case mult =>
      simp only [specBinApply, specBinApplyQ]
      exact ⟨Frac.norm_reduced _ _ (by positivity), by rw [Frac.toRat_mul hA hB]⟩
  case div =>
      rcases hz : b.isZero with _ | _
      · have hq : b.toRat ≠ 0 := Frac.toRat_ne_zero hB hz
        have hbn : b.num ≠ 0 := by simpa [Frac.isZero] using hz
        simp only [specBinApply, specBinApplyQ, hz, Bool.false_eq_true, if_false, hq]
        exact ⟨Frac.norm_reduced _ _ (by positivity), by rw [Frac.toRat_div hA hB hz]⟩
      · have hq : b.toRat = 0 := (Frac.isZero_iff hB).mp hz
        simp [specBinApply, specBinApplyQ, hz, hq]
  case floorDiv =>
      rcases hz : b.isZero with _ | _
      · have hq : b.toRat ≠ 0 := Frac.toRat_ne_zero hB hz
        have hbn : b.num ≠ 0 := by simpa [Frac.isZero] using hz
        have hdivR : (a.div b).Reduced := Frac.norm_reduced _ _ (by positivity)
        simp only [specBinApply, specBinApplyQ, hz, Bool.false_eq_true, if_false, hq]
        refine ⟨Frac.ofInt_reduced _, ?_⟩
        rw [Frac.toRat_ofInt, Frac.floor_toRat hdivR.1, Frac.toRat_div hA hB hz]
      · have hq : b.toRat = 0 := (Frac.isZero_iff hB).mp hz
        simp [specBinApply, specBinApplyQ, hz, hq]
  case mod =>
      rcases hz : b.isZero with _ | _
      · have hq : b.toRat ≠ 0 := Frac.toRat_ne_zero hB hz
        have hbn : b.num ≠ 0 := by simpa [Frac.isZero] using hz
        have hdivR : (a.div b).Reduced := Frac.norm_reduced _ _ (by positivity)
        have hofR : (Frac.ofInt ((a.div b).floor)).Reduced := Frac.ofInt_reduced _
        have hofden : (0 : Int) < (Frac.ofInt ((a.div b).floor)).den := hofR.1
        have hmulR : (b.mul (Frac.ofInt ((a.div b).floor))).Reduced :=
          Frac.norm_reduced _ _ (by positivity)
        have hmulden : (0 : Int) < (b.mul (Frac.ofInt ((a.div b).floor))).den := hmulR.1
        simp only [specBinApply, specBinApplyQ, hz, Bool.false_eq_true, if_false, hq]
        refine ⟨Frac.norm_reduced _ _ (by positivity), ?_⟩
        rw [Frac.toRat_sub hA hmulR.1, Frac.toRat_mul hB hofR.1, Frac.toRat_ofInt,
          Frac.floor_toRat hdivR.1, Frac.toRat_div hA hB hz]
      · have hq : b.toRat = 0 := (Frac.isZero_iff hB).mp hz
        simp [specBinApply, specBinApplyQ, hz, hq]
  case pow =>
      obtain ⟨hqnum, hqden⟩ := Frac.toRat_num_den hb
      rcases hi : b.isInt with _ | _
      · have hqd : b.toRat.den ≠ 1 := by
          intro hh
          rw [← Frac.isInt_iff hb] at hh
          rw [hh] at hi
          cases hi
        simp [specBinApply, specBinApplyQ, hi, hqd]
      · have hqd : b.toRat.den = 1 := (Frac.isInt_iff hb).mp hi
        rcases hg : a.isZero && decide (b.num < 0) with _ | _
        · have hguard : ¬ (a.toRat = 0 ∧ b.toRat.num < 0) := by
            rw [hqnum]
            intro hpair
            rw [← Frac.isZero_iff hA] at hpair
            rw [hpair.1, decide_eq_true hpair.2] at hg
            cases hg
          have hpre : a.isZero = false ∨ 0 ≤ b.num := by
            rcases hza : a.isZero with _ | _
            · exact Or.inl rfl
            · right
              rw [hza, Bool.true_and] at hg
              simpa using of_decide_eq_false hg
          simp only [specBinApply, specBinApplyQ, hi, hg, Bool.false_eq_true, if_false,
            if_true, hqd, hguard]
          have hR : (a.powInt b.num).Reduced := by
            cases hk : b.num with
            | ofNat m => exact Frac.powNat_reduced ha m
            | negSucc m =>
                have hza : a.isZero = false := by
                  rcases hpre with h | h
                  · exact h
                  · rw [hk] at h
                    exact absurd h (not_le.mpr (Int.negSucc_lt_zero m))
                have hp := Frac.powNat_reduced ha (m + 1)
                have hpz := Frac.powNat_ne_zero ha hza (m + 1)
                have hbn : (a.powNat (m + 1)).num ≠ 0 := by
                  simpa [Frac.isZero] using hpz
                have h1 : (0 : Int) < (a.powNat (m + 1)).den := hp.1
                exact Frac.norm_reduced _ _ (by positivity)
          exact ⟨hR, by rw [Frac.toRat_powInt ha b.num hpre, hqnum]⟩
        · have hand : a.isZero = true ∧ decide (b.num < 0) = true := by
            rcases hza : a.isZero with _ | _
            · rw [hza, Bool.false_and] at hg
              cases hg
            · rw [hza, Bool.true_and] at hg
              exact ⟨rfl, hg⟩
          have h1 : a.toRat = 0 := (Frac.isZero_iff hA).mp hand.1
          have h2 : b.toRat.num < 0 := by
            rw [hqnum]
            exact of_decide_eq_true hand.2
          simp [specBinApply, specBinApplyQ, hi, hg, hqd, h1, h2]
  all_goals simp [specBinApply, specBinApplyQ]

theorem specEval_specEvalQ (e : PyExpr) :
    match specEval e with
    | .ok v => v.Reduced ∧ specEvalQ e = .ok v.toRat
    | .error er => specEvalQ e = .error er := by
  induction e with
  | const c =>
      cases c
      case intC n =>
          exact ⟨Frac.ofInt_reduced n, by rw [specEvalQ, Frac.toRat_ofInt]⟩
      case floatC m ex =>
          refine ⟨Frac.norm_reduced _ _ (by positivity), ?_⟩
          rw [specEvalQ, Frac.toRat_norm _ _ (by positivity)]
          push_cast
          rfl
      case boolC b =>
          cases b
          · exact ⟨Frac.ofInt_reduced 0, by rw [specEvalQ]; rw [Frac.toRat_ofInt]; norm_num⟩
          · exact ⟨Frac.ofInt_reduced 1, by rw [specEvalQ]; rw [Frac.toRat_ofInt]; norm_num⟩
      case strC s => rfl
      case noneC => rfl
      case complexC => rfl
  | unaryOp u e ih =>
      cases u
      case uAdd =>
          simp only [specEval, specEvalQ]
          exact ih
      case uSub =>
          cases hs : specEval e with
          | ok a =>
              rw [hs] at ih
              obtain ⟨haR, haQ⟩ := ih
              simp only [specEval, specEvalQ, hs, haQ]
              exact ⟨Frac.neg_reduced haR, by rw [Frac.toRat_neg]⟩
          | error er =>
              rw [hs] at ih
              simp only [specEval, specEvalQ, hs, ih]
      case uNot => rfl
      case uInvert => rfl
  | binOp op l r ihl ihr =>
      by_cases hop : specArithOp op = true
      · simp only [specEval, specEvalQ, hop, if_true]
        cases hsl : specEval l with
        | error er =>
            rw [hsl] at ihl
            simp only [ihl]
        | ok a =>
            rw [hsl] at ihl
            obtain ⟨haR, haQ⟩ := ihl
            simp only [haQ]
            cases hsr : specEval r with
            | error er =>
                rw [hsr] at ihr
                simp only [ihr]
            | ok b =>
                rw [hsr] at ihr
                obtain ⟨hbR, hbQ⟩ := ihr
                simp only [hbQ]
                exact specBinApplyQ_agree op a b haR hbR
      · have hop' : specArithOp op = false := by
          rcases h : specArithOp op with _ | _
          · rfl
          · exact absurd h hop
        simp [specEval, specEvalQ, hop']
  | name s => rfl
  | call f ih => rfl
  | attrAccess e attrName ih => rfl

/-- Capstone of the grounding: whenever the specification evaluator produces
a value, the independent Mathlib-`ℚ` evaluator produces the same rational
number. -/
theorem specEval_value_sound (e : PyExpr) (v : Frac) (h : specEval e = .ok v) :
    specEvalQ e = .ok v.toRat := by
  have hm := specEval_specEvalQ e
  rw [h] at hm
  exact hm.2

/-! ## Validation examples

Concrete evaluations pinning the embedding to known values: the calendar
algorithm at the epochs of Python's `date` range, the worked example from the
tool docstrings (`"(234*12)+98"`), and the Python operator semantics on
signed operands.
-/

example : civilFromOrdinal 1 = (1, 1, 1) := by decide

example : civilFromOrdinal 719163 = (1970, 1, 1) := by decide

example : civilFromOrdinal 3652059 = (9999, 12, 31) := by decide

example : isoDate 739901 = "2026-10-12" := by decide

example : isoDate 739946 = "2026-11-26" := by decide

example :
    math_tool (.binOp .add (.binOp .mult (.const (.intC 234)) (.const (.intC 12)))
      (.const (.intC 98))) = .ok "2906" := by decide

example : math_tool (.binOp .mod (.const (.intC (-7))) (.const (.intC 3))) = .ok "2" := by
  decide

example : math_tool (.binOp .floorDiv (.const (.intC (-7))) (.const (.intC 2))) = .ok "-4" := by
  decide

example :
    math_tool (.binOp .pow (.const (.intC 2)) (.unaryOp .uSub (.const (.intC 2)))) =
      .ok "1/4" := by decide

example :
    math_tool (.binOp .div (.const (.intC 1)) (.const (.intC 0))) =
      .ok "ERROR: ZeroDivisionError: float division by zero" := by decide

example : math_tool (.name "x") = .ok ("ERROR: ValueError: " ++ unsupportedMsg) := by decide

example : math_tool (.const (.floatC 1 1)) = .ok "1/2" := by decide

example : pyWords "  hi   there  " = ["hi", "there"] := by decide

example :
    text_analyzer_tool (some "a good nice day") =
      .ok (.result 4 15 "positive"
        "More positive keywords (2) than negative keywords (0).") := by decide

example : text_analyzer_tool none = .ok (.errDict "ValueError: Text is None.") := by decide

example :
    retrieve_memories (fun _ _ _ => .ok ["likes tea", "name is Hemant"])
      "what is my name" "Hemant" =
      ("- likes tea\n- name is Hemant", [⟨"what is my name", "Hemant", 5⟩]) := by decide

example : specEvalQ snapExpr = .ok ((1 : ℚ) / 10000000000000) := by
  have h := specEval_value_sound snapExpr ⟨1, 10000000000000⟩ (by decide)
  rw [h]
  norm_num [Frac.toRat]
